import Mathlib

/-!
Shallow embedding of the DA7280 haptic-driver HAL
(`src/support/da7280_hal_1r0/da7280.c` together with the register map and the
customer constants of `da7280_hal.h`).

The I2C bus is modelled as an oracle: `readv reg` is the byte a register read
returns (`none` is a bus read failure, the C code's `-Eio`), and
`writeOk reg val` says whether a register write succeeds.  Every function
returns its C `int` result together with the chronological list of the
register writes it issued on the bus (a write is logged even when it fails,
since it was issued).  C `u8` truncation is `% 256`, C signed division is
`Int.tdiv` (truncation toward zero) and C `& (2^k - 1)` on a possibly
negative `int` is `Int.emod (2^k)`.
-/

/-- Register addresses and field masks from the DA7280 register map. -/
def DA7280_IRQ_EVENT1 : Nat := 0x03
def DA7280_IRQ_STATUS1 : Nat := 0x06
def DA7280_FRQ_LRA_PER_H : Nat := 0x0A
def DA7280_FRQ_LRA_PER_L : Nat := 0x0B
def DA7280_ACTUATOR1 : Nat := 0x0C
def DA7280_ACTUATOR2 : Nat := 0x0D
def DA7280_ACTUATOR3 : Nat := 0x0E
def DA7280_CALIB_V2I_H : Nat := 0x0F
def DA7280_CALIB_V2I_L : Nat := 0x10
def DA7280_TOP_CFG1 : Nat := 0x13
def DA7280_TOP_CFG4 : Nat := 0x16
def DA7280_TOP_INT_CFG1 : Nat := 0x17
def DA7280_TOP_CTL1 : Nat := 0x22
def DA7280_TOP_CTL2 : Nat := 0x23
def DA7280_SEQ_CTL2 : Nat := 0x28
def DA7280_GPI_0_CTL : Nat := 0x29
def DA7280_GPI_1_CTL : Nat := 0x2A
def DA7280_GPI_2_CTL : Nat := 0x2B
def DA7280_MEM_CTL1 : Nat := 0x2C
def DA7280_MEM_CTL2 : Nat := 0x2D
def DA7280_SNP_MEM_MAX : Nat := 0xE7

def DA7280_E_PAT_FAULT_MASK : Nat := 1 <<< 4
def DA7280_STA_WARNING_MASK : Nat := 1 <<< 5
def DA7280_IMAX_MASK : Nat := 31
def DA7280_OPERATION_MODE_MASK : Nat := 7
def DA7280_STANDBY_EN_MASK : Nat := 1 <<< 3
def DA7280_BEMF_SENSE_EN_MASK : Nat := 1 <<< 4
def DA7280_ACTUATOR_TYPE_MASK : Nat := 1 <<< 5
def DA7280_FREQ_TRACK_EN_MASK : Nat := 1 <<< 3
def DA7280_ACCELERATION_EN_MASK : Nat := 1 <<< 2
def DA7280_RAPID_STOP_EN_MASK : Nat := 1 <<< 1
def DA7280_AMP_PID_EN_MASK : Nat := 1
def DA7280_PATTERN_MEM_LOCK_MASK : Nat := 1 <<< 7
def DA7280_BEMF_FAULT_LIM_MASK : Nat := 3
def DA7280_TST_CALIB_IMPEDANCE_DIS_MASK : Nat := 1 <<< 6
def DA7280_V2I_FACTOR_FREEZE_MASK : Nat := 1 <<< 7

/-- Limit constants of `da7280_hal.h`. -/
def DA7280_VOLT_RATE_MAX : Nat := 6000
def DA7280_VOLT_STEP_uV : Nat := 23400
def DA7280_NOM_VOLT_DFT : Nat := 0x6B
def DA7280_IMAX_STEP : Int := 7200
def DA7280_MIN_RESONAT_FREQ : Nat := 50
def DA7280_MAX_RESONAT_FREQ : Nat := 300
def DA7280_IMPD_MAX : Int := 50000
def DA7280_IMPD_MIN : Int := 4000
def DA7280_IMAX_LIMIT : Int := 252
def DA7280_SNP_MEM_SIZE : Nat := 100
def DA7280_DELAY : Nat := 0xFFFE

/-- Error codes of `da7280_hal.h` (functions return the negation). -/
def EINVAL : Int := 1
def EACCES : Int := 13
def EBUSY : Int := 16
def Eio : Int := 2

/-- The I2C bus oracle: what each register read returns (`none` = bus read
failure) and whether a given register write succeeds. -/
structure Bus where
  readv : Nat → Option Nat
  writeOk : Nat → Nat → Bool

/-- Chronological list of the `(register, byte)` writes issued on the bus. -/
abbrev BusLog := List (Nat × Nat)

/-- `da7280_reg_read`: returns the byte read (0..255) or `-Eio` on bus
failure. The `u8 reg` parameter truncates the address. -/
def da7280_reg_read (b : Bus) (reg : Nat) : Int :=
  match b.readv (reg % 256) with
  | some v => ((v % 256 : Nat) : Int)
  | none => -Eio

/-- C truncation of an `int` result into a `u8` variable. -/
def byteOf (r : Int) : Nat := (r.emod 256).toNat

/-- `da7280_reg_write`: issues the write (logged even on failure) and
returns 0 on success, a negative error otherwise. `u8` parameters truncate. -/
def da7280_reg_write (b : Bus) (reg v : Nat) : Int × BusLog :=
  (if b.writeOk (reg % 256) (v % 256) then 0 else -Eio, [(reg % 256, v % 256)])

/-- `da7280_update_bits`: read-modify-write.  The C source stores the read
result into a `u8` variable, so the `val < 0` error check can never fire: a
failed read (`-Eio` = -2) is truncated to the byte 0xFE and the function
carries on with it.  The written byte is `(old & ~mask) | bits`, with `bits`
NOT masked. -/
def da7280_update_bits (b : Bus) (reg mask bits : Nat) : Int × BusLog :=
  let val := byteOf (da7280_reg_read b reg)
  let v2 := (val &&& (255 ^^^ (mask % 256))) ||| (bits % 256)
  let w := da7280_reg_write b reg v2
  (if w.1 < 0 then -Eio else 0, w.2)

/-- Inner loop of `da7280_reg_bulk_write`: writes `mem i` to `reg + i` for
`i = start, start+1, ...` (`n` steps), stopping at the first failure with
`-Eio`. -/
def bulk_write_go (b : Bus) (reg : Nat) (mem : Nat → Nat) : Nat → Nat → Int × BusLog
  | 0, _ => (0, [])
  | n + 1, i =>
    let w := da7280_reg_write b (reg + i) (mem i)
    if w.1 ≠ 0 then (-Eio, w.2)
    else
      let rest := bulk_write_go b reg mem n (i + 1)
      (rest.1, w.2 ++ rest.2)

/-- `da7280_reg_bulk_write` with an `Int` count (the C `int val_count`): a
non-positive count performs no iterations. -/
def da7280_reg_bulk_write (b : Bus) (reg : Nat) (mem : Nat → Nat) (count : Int) : Int × BusLog :=
  bulk_write_go b reg mem count.toNat 0

/-- `da7280_run_script`: writes each `(reg, val)` entry in order (a
`DA7280_DELAY` entry only sleeps), halting with `-Eio` at the first failed
write.  The list end stands for the `SEQ_END` sentinel. -/
def da7280_run_script (b : Bus) : List (Nat × Nat) → Int × BusLog
  | [] => (0, [])
  | (reg, v) :: rest =>
    if reg = DA7280_DELAY then da7280_run_script b rest
    else
      let w := da7280_reg_write b (reg % 256) v
      if w.1 ≠ 0 then (-Eio, w.2)
      else
        let r := da7280_run_script b rest
        (r.1, w.2 ++ r.2)

/-- `da7280_haptic_mem_update`: size check, busy check on the warning bit of
IRQ_STATUS1, lock check on the (inverted-logic) pattern-memory lock bit of
MEM_CTL2, then a bulk write from the base address read out of MEM_CTL1 for
`0xE7 - base + 1` bytes. -/
def da7280_haptic_mem_update (b : Bus) (snp_mem : Nat → Nat) (size : Nat) : Int × BusLog :=
  if size > DA7280_SNP_MEM_SIZE then (-EINVAL, [])
  else
    let v1 := da7280_reg_read b DA7280_IRQ_STATUS1
    if v1 < 0 then (v1, [])
    else if v1.toNat &&& DA7280_STA_WARNING_MASK ≠ 0 then (-EBUSY, [])
    else
      let v2 := da7280_reg_read b DA7280_MEM_CTL2
      if v2 < 0 then (v2, [])
      else if (v2.toNat ^^^ 255) &&& DA7280_PATTERN_MEM_LOCK_MASK ≠ 0 then (-EACCES, [])
      else
        let v3 := da7280_reg_read b DA7280_MEM_CTL1
        if v3 < 0 then (v3, [])
        else da7280_reg_bulk_write b v3.toNat snp_mem
          ((DA7280_SNP_MEM_MAX : Int) - v3 + 1)

/-- Driver-private mirror of chip state (`static struct da7280_haptic`). -/
structure da7280_haptic where
  suspend_state : Bool
  dev_type : Nat
  op_mode : Nat
  bemf_sense_en : Nat
  freq_track_en : Nat
  acc_en : Nat
  rapid_stop_en : Nat
  amp_pid_en : Nat

/-- `da7280_set_override_val`: saturates the drive level to 0x7F when
acceleration is on or the device is an LRA, then writes TOP_CTL2. -/
def da7280_set_override_val (b : Bus) (h : da7280_haptic) (val : Nat) : Int × BusLog :=
  if val > 0xFF then (-EINVAL, [])
  else
    let mask := if h.acc_en ≠ 0 ∨ h.dev_type = 0 then 0x7F else 0xFF
    let val := if val > mask then mask else val
    da7280_reg_write b DA7280_TOP_CTL2 (val &&& mask)

/-- `da7280_set_resonant_freq`: range check then the period register pair. -/
def da7280_set_resonant_freq (b : Bus) (val : Nat) : Int × BusLog :=
  if val > DA7280_MAX_RESONAT_FREQ ∨ val < DA7280_MIN_RESONAT_FREQ then (-EINVAL, [])
  else
    let get_val := 1000000000 / (val * 1333)
    let w1 := da7280_reg_write b DA7280_FRQ_LRA_PER_H ((get_val >>> 7) &&& 0xFF)
    if w1.1 ≠ 0 then (w1.1, w1.2)
    else
      let w2 := da7280_reg_write b DA7280_FRQ_LRA_PER_L (get_val &&& 0x7F)
      if w2.1 ≠ 0 then (w2.1, w1.2 ++ w2.2)
      else (0, w1.2 ++ w2.2)

/-- `da7280_impd_check`: impedance range check, no bus traffic. -/
def da7280_impd_check (impd : Int) : Int :=
  if impd > DA7280_IMPD_MAX ∨ impd < DA7280_IMPD_MIN then -EINVAL else 0

/-- `da7280_set_imax`, with the compile-time `USER_IMPD_mOhm` made a
parameter: ceiling check, derive the current-limit code (C truncating
division), clamp it ABOVE at 0x1F only, write its low five bits (two's
complement `& 0x1F`) into the IMAX field of ACTUATOR3, then the impedance
check and the V2I factor register pair. -/
def da7280_set_imax (b : Bus) (impd : Int) (val : Int) : Int × BusLog :=
  if val > DA7280_IMAX_LIMIT then (-EINVAL, [])
  else
    let imax0 : Int := (val * 1000 - 28600).tdiv DA7280_IMAX_STEP + 1
    let imax : Int := if imax0 > 0x1F then 0x1F else imax0
    let r := da7280_update_bits b DA7280_ACTUATOR3 DA7280_IMAX_MASK
      (imax.emod 32).toNat
    if r.1 ≠ 0 then (r.1, r.2)
    else if da7280_impd_check impd ≠ 0 then (-EINVAL, r.2)
    else
      let v2i : Nat := (((impd * 1000 * (imax + 4)).tdiv 1610400).emod (2 ^ 32)).toNat
      let wl := da7280_reg_write b DA7280_CALIB_V2I_L (v2i &&& 0xFF)
      if wl.1 ≠ 0 then (wl.1, r.2 ++ wl.2)
      else
        let wh := da7280_reg_write b DA7280_CALIB_V2I_H ((v2i >>> 8) &&& 0xFF)
        (wh.1, r.2 ++ wl.2 ++ wh.2)

/-- `da7280_set_volt_rating`: derive the voltage code, falling back to the
fixed default 0x6B for inputs at or above 6000 mV, clamp at 0xFF, single
register write; no validation error path exists. -/
def da7280_set_volt_rating (b : Bus) (reg : Nat) (val : Nat) : Int × BusLog :=
  let voltage :=
    if val < DA7280_VOLT_RATE_MAX then val * 1000 / DA7280_VOLT_STEP_uV + 1
    else DA7280_NOM_VOLT_DFT
  let voltage := if voltage > 0xFF then 0xFF else voltage
  da7280_reg_write b reg (voltage &&& 0xFF)

/-- `da7280_irq_handler`: read the three event registers; return 0 with no
writes when all are zero; on a pattern fault clear the operation-mode field
of TOP_CTL1 first; then write back the first event byte to clear it. -/
def da7280_irq_handler (b : Bus) : Int × BusLog :=
  let v0 := da7280_reg_read b DA7280_IRQ_EVENT1
  if v0 < 0 then (v0, [])
  else
    let v1 := da7280_reg_read b (DA7280_IRQ_EVENT1 + 1)
    if v1 < 0 then (v1, [])
    else
      let v2 := da7280_reg_read b (DA7280_IRQ_EVENT1 + 2)
      if v2 < 0 then (v2, [])
      else
        let e0 := byteOf v0
        let e1 := byteOf v1
        let e2 := byteOf v2
        if e0 ||| e1 ||| e2 = 0 then (0, [])
        else
          let step : Int × BusLog :=
            if e0 &&& DA7280_E_PAT_FAULT_MASK ≠ 0 then
              da7280_update_bits b DA7280_TOP_CTL1 DA7280_OPERATION_MODE_MASK 0
            else (0, [])
          if step.1 ≠ 0 then step
          else
            let w := da7280_reg_write b DA7280_IRQ_EVENT1 e0
            (w.1, step.2 ++ w.2)

/-- `da7280_suspend`: no-op if already suspended, else clear STANDBY_EN in
TOP_CTL1 and record the suspended state. -/
def da7280_suspend (b : Bus) (h : da7280_haptic) : Int × da7280_haptic × BusLog :=
  if h.suspend_state then (0, h, [])
  else
    let r := da7280_update_bits b DA7280_TOP_CTL1 DA7280_STANDBY_EN_MASK 0
    if r.1 ≠ 0 then (r.1, h, r.2)
    else (0, { h with suspend_state := true }, r.2)

/-- `da7280_resume`: no-op if already resumed, else set STANDBY_EN in
TOP_CTL1 and clear the suspended state. -/
def da7280_resume (b : Bus) (h : da7280_haptic) : Int × da7280_haptic × BusLog :=
  if h.suspend_state = false then (0, h, [])
  else
    let r := da7280_update_bits b DA7280_TOP_CTL1 DA7280_STANDBY_EN_MASK
      DA7280_STANDBY_EN_MASK
    if r.1 ≠ 0 then (r.1, h, r.2)
    else (0, { h with suspend_state := false }, r.2)

/-- The customer `USER_...` compile-time constants of `da7280_hal.h`, made a
parameter so the configure path can be analysed over its full domain. -/
structure UserData where
  haptic_dev : Nat
  op_mode : Nat
  bemf_sens_en : Nat
  freq_track_en : Nat
  acc_en : Nat
  rapid_stop_en : Nat
  amp_pid_en : Nat
  nom_mVolt : Nat
  abs_max_mV : Nat
  resonant_freq_Hz : Nat
  imax_mA : Int
  impd_mOhm : Int

/-- The `USER_...` values as shipped in `da7280_hal.h`. -/
def defaultUserData : UserData :=
  { haptic_dev := 0
    op_mode := 1
    bemf_sens_en := 1
    freq_track_en := 1
    acc_en := 1
    rapid_stop_en := 1
    amp_pid_en := 0
    nom_mVolt := 1200
    abs_max_mV := 1400
    resonant_freq_Hz := 180
    imax_mA := 137
    impd_mOhm := 10500 }

/-- `da7280_pdata_setup`: the fixed bring-up script (event clear, override
value, sequence defaults, the three GPI defaults; `DA7280_USER_GPIO` is
defined in the shipped header). -/
def da7280_pdata_setup : List (Nat × Nat) :=
  [(DA7280_IRQ_EVENT1, 0xFF),
   (DA7280_TOP_CTL2, 0x59),
   (DA7280_SEQ_CTL2, 3 <<< 4 ||| 7),
   (DA7280_GPI_0_CTL, 7 <<< 3 ||| 0 <<< 2 ||| 2),
   (DA7280_GPI_1_CTL, 7 <<< 3 ||| 0 <<< 2 ||| 2),
   (DA7280_GPI_2_CTL, 7 <<< 3 ||| 0 <<< 2 ||| 2)]

/-- The combined TOP_CFG1 value composed by `da7280_set_user_data`. -/
def top_cfg1_val (h : da7280_haptic) : Nat :=
  (if h.dev_type ≠ 0 then 1 else 0) <<< 5 |||
  (if h.bemf_sense_en ≠ 0 then 1 else 0) <<< 4 |||
  (if h.freq_track_en ≠ 0 then 1 else 0) <<< 3 |||
  (if h.acc_en ≠ 0 then 1 else 0) <<< 2 |||
  (if h.rapid_stop_en ≠ 0 then 1 else 0) <<< 1 |||
  (if h.amp_pid_en ≠ 0 then 1 else 0)

/-- The combined TOP_CFG1 mask composed by `da7280_set_user_data`. -/
def top_cfg1_mask : Nat :=
  DA7280_ACTUATOR_TYPE_MASK ||| DA7280_BEMF_SENSE_EN_MASK |||
  DA7280_FREQ_TRACK_EN_MASK ||| DA7280_ACCELERATION_EN_MASK |||
  DA7280_RAPID_STOP_EN_MASK ||| DA7280_AMP_PID_EN_MASK

/-- The device-type switch of `da7280_set_user_data` (LRA: resonant
frequency; ERM-coin: fault-limit and calibration-freeze bits plus forced-off
flags; other types: nothing). -/
def da7280_set_user_data_branch (b : Bus) (cfg : UserData) (h1 : da7280_haptic) :
    Int × da7280_haptic × BusLog :=
  if h1.dev_type = 0 then
    let r := da7280_set_resonant_freq b cfg.resonant_freq_Hz
    (r.1, h1, r.2)
  else if h1.dev_type = 2 then
    let r1 := da7280_update_bits b DA7280_TOP_INT_CFG1 DA7280_BEMF_FAULT_LIM_MASK 0
    if r1.1 ≠ 0 then (r1.1, h1, r1.2)
    else
      let r2 := da7280_update_bits b DA7280_TOP_CFG4
        (DA7280_TST_CALIB_IMPEDANCE_DIS_MASK ||| DA7280_V2I_FACTOR_FREEZE_MASK)
        (DA7280_TST_CALIB_IMPEDANCE_DIS_MASK ||| DA7280_V2I_FACTOR_FREEZE_MASK)
      if r2.1 ≠ 0 then (r2.1, h1, r1.2 ++ r2.2)
      else (0, { h1 with acc_en := 0, rapid_stop_en := 0, amp_pid_en := 0 },
            r1.2 ++ r2.2)
  else (0, h1, [])

/-- `da7280_set_user_data`: copy the user data into the driver state, run the
device-type specific branch, force back-EMF sense off for modes at or above
RTWM, program the combined TOP_CFG1 update, the current limit, the two
voltage ratings, then the bring-up script (a script failure is reported as
`-EINVAL`). -/
def da7280_set_user_data (b : Bus) (cfg : UserData) (h0 : da7280_haptic) :
    Int × da7280_haptic × BusLog :=
  let h1 : da7280_haptic :=
    { h0 with
      dev_type := cfg.haptic_dev
      op_mode := cfg.op_mode
      bemf_sense_en := cfg.bemf_sens_en
      freq_track_en := cfg.freq_track_en
      acc_en := cfg.acc_en
      rapid_stop_en := cfg.rapid_stop_en
      amp_pid_en := cfg.amp_pid_en }
  let branch := da7280_set_user_data_branch b cfg h1
  if branch.1 ≠ 0 then branch
  else
    let h2 := branch.2.1
    let log1 := branch.2.2
    let h3 := if h2.op_mode ≥ 3 then { h2 with bemf_sense_en := 0 } else h2
    let r := da7280_update_bits b DA7280_TOP_CFG1 top_cfg1_mask (top_cfg1_val h3)
    if r.1 ≠ 0 then (r.1, h3, log1 ++ r.2)
    else
      let ri := da7280_set_imax b cfg.impd_mOhm cfg.imax_mA
      if ri.1 ≠ 0 then (ri.1, h3, log1 ++ r.2 ++ ri.2)
      else
        let rv1 := da7280_set_volt_rating b DA7280_ACTUATOR1 cfg.nom_mVolt
        if rv1.1 ≠ 0 then (rv1.1, h3, log1 ++ r.2 ++ ri.2 ++ rv1.2)
        else
          let rv2 := da7280_set_volt_rating b DA7280_ACTUATOR2 cfg.abs_max_mV
          if rv2.1 ≠ 0 then (rv2.1, h3, log1 ++ r.2 ++ ri.2 ++ rv1.2 ++ rv2.2)
          else
            let rs := da7280_run_script b da7280_pdata_setup
            if rs.1 ≠ 0 then
              (-EINVAL, h3, log1 ++ r.2 ++ ri.2 ++ rv1.2 ++ rv2.2 ++ rs.2)
            else (0, h3, log1 ++ r.2 ++ ri.2 ++ rv1.2 ++ rv2.2 ++ rs.2)

/-! Helper buses and lemmas shared by the claim theorems. -/

/-- A bus whose reads all return 0 and whose writes all succeed. -/
def allOkBus : Bus := ⟨fun _ => some 0, fun _ _ => true⟩

/-- A bus with a fixed register image and always-succeeding writes. -/
def imageBus (f : Nat → Nat) : Bus := ⟨fun r => some (f r), fun _ _ => true⟩

lemma reg_write_ok {b : Bus} (hw : ∀ r v, b.writeOk r v = true) (reg v : Nat) :
    da7280_reg_write b reg v = (0, [(reg % 256, v % 256)]) := by
  simp [da7280_reg_write, hw]

lemma and_byte_lt {x m : Nat} (hm : m < 256) : x &&& m < 256 :=
  lt_of_le_of_lt Nat.and_le_right hm

lemma mod256_eq_of_lt {x : Nat} (h : x < 256) : x % 256 = x := Nat.mod_eq_of_lt h

lemma byteOf_natCast (x : Nat) : byteOf (x : Int) = x % 256 := by
  show ((x : Int) % 256).toNat = x % 256
  omega

lemma byteOf_lt (r : Int) : byteOf r < 256 := by
  show (r % 256).toNat < 256
  omega

lemma reg_read_some {b : Bus} {reg v : Nat} (h : b.readv (reg % 256) = some v) :
    da7280_reg_read b reg = ((v % 256 : Nat) : Int) := by
  simp [da7280_reg_read, h]

lemma reg_read_none {b : Bus} {reg : Nat} (h : b.readv (reg % 256) = none) :
    da7280_reg_read b reg = -Eio := by
  simp [da7280_reg_read, h]

/-- C2: For every frequency f with 50 <= f <= 300 Hz, da7280_set_resonant_freq
computes period = 1000000000 / (f * 1333) in integer arithmetic and writes
((period >> 7) & 0xFF) to FRQ_LRA_PER_H followed by (period & 0x7F) to
FRQ_LRA_PER_L; for every f outside [50, 300] it returns a validation error
without any bus access. -/
theorem set_resonant_freq_spec (b : Bus) (f : Nat)
    (hw : ∀ r v, b.writeOk r v = true) :
    (50 ≤ f → f ≤ 300 →
      da7280_set_resonant_freq b f =
        ((0 : Int), [(DA7280_FRQ_LRA_PER_H, ((1000000000 / (f * 1333)) >>> 7) &&& 0xFF),
             (DA7280_FRQ_LRA_PER_L, (1000000000 / (f * 1333)) &&& 0x7F)])) ∧
    ((f < 50 ∨ 300 < f) → da7280_set_resonant_freq b f = (-EINVAL, [])) := by
  constructor
  · intro h1 h2
    unfold da7280_set_resonant_freq
    rw [if_neg (by simp only [DA7280_MAX_RESONAT_FREQ, DA7280_MIN_RESONAT_FREQ]; omega)]
    simp only [reg_write_ok hw]
    have hA : ∀ x : Nat, (x &&& 255) % 256 = x &&& 255 := fun x =>
      mod256_eq_of_lt (and_byte_lt (by norm_num))
    have hB : ∀ x : Nat, (x &&& 127) % 256 = x &&& 127 := fun x =>
      mod256_eq_of_lt (and_byte_lt (by norm_num))
    simp [DA7280_FRQ_LRA_PER_H, DA7280_FRQ_LRA_PER_L, hA, hB]
  · intro h
    unfold da7280_set_resonant_freq
    rw [if_pos (by simp only [DA7280_MAX_RESONAT_FREQ, DA7280_MIN_RESONAT_FREQ]; omega)]

/-- Witness for C2 at f = 180 Hz: period 4167, register pair 0x20 / 0x47. -/
theorem set_resonant_freq_spec_witness :
    (∀ r v, allOkBus.writeOk r v = true) ∧ (50 ≤ 180 ∧ 180 ≤ 300) ∧
    da7280_set_resonant_freq allOkBus 180 = (0, [(0x0A, 0x20), (0x0B, 0x47)]) := by
  refine ⟨fun r v => rfl, ⟨by norm_num, by norm_num⟩, ?_⟩
  have h := (set_resonant_freq_spec allOkBus 180 (fun r v => rfl)).1
    (by norm_num) (by norm_num)
  simpa [DA7280_FRQ_LRA_PER_H, DA7280_FRQ_LRA_PER_L] using h

lemma and_255_eq (x : Nat) : x &&& 255 = x % 256 := by
  have h := Nat.and_pow_two_sub_one_eq_mod x 8
  norm_num at h
  exact h

lemma and_127_eq (x : Nat) : x &&& 127 = x % 128 := by
  have h := Nat.and_pow_two_sub_one_eq_mod x 7
  norm_num at h
  exact h

lemma reg_write_byte (b : Bus) (reg v : Nat) (hv : v ≤ 255) :
    da7280_reg_write b reg (v &&& 255) =
      (if b.writeOk (reg % 256) v then (0 : Int) else -Eio, [(reg % 256, v)]) := by
  have hh : (v &&& 255) % 256 = v := by rw [and_255_eq]; omega
  simp [da7280_reg_write, hh]

/-- C8: For every input val (in mV), da7280_set_volt_rating writes to the
given register the byte val*1000/23400 + 1 clamped to at most 255 when
val < 6000, and the fixed default code 0x6B when val >= 6000 (fallback
instead of error); it never returns a validation error for any input, only a
bus error from the single register write. -/
theorem set_volt_rating_spec (b : Bus) (reg val : Nat) :
    (val < 6000 →
      da7280_set_volt_rating b reg val =
        (if b.writeOk (reg % 256) (min (val * 1000 / 23400 + 1) 255) then (0 : Int)
          else -Eio,
         [(reg % 256, min (val * 1000 / 23400 + 1) 255)])) ∧
    (6000 ≤ val →
      da7280_set_volt_rating b reg val =
        (if b.writeOk (reg % 256) 0x6B then (0 : Int) else -Eio,
         [(reg % 256, 0x6B)])) := by
  constructor
  · intro h
    simp only [da7280_set_volt_rating, DA7280_VOLT_RATE_MAX, DA7280_VOLT_STEP_uV,
      DA7280_NOM_VOLT_DFT, if_pos h]
    have hmin : (if val * 1000 / 23400 + 1 > 255 then 255
        else val * 1000 / 23400 + 1) = min (val * 1000 / 23400 + 1) 255 := by
      split <;> omega
    rw [hmin, reg_write_byte b reg _ (by omega)]
  · intro h
    simp only [da7280_set_volt_rating, DA7280_VOLT_RATE_MAX, DA7280_VOLT_STEP_uV,
      DA7280_NOM_VOLT_DFT, if_neg (by omega : ¬ val < 6000)]
    have h107 : (if 107 > 255 then 255 else 107) = 107 := by norm_num
    rw [h107, reg_write_byte b reg 107 (by norm_num)]

/-- Witness for C8 at val = 1200 mV (register 0x0C) and val = 7000 mV. -/
theorem set_volt_rating_spec_witness :
    (1200 : Nat) < 6000 ∧ (6000 : Nat) ≤ 7000 ∧
    da7280_set_volt_rating allOkBus 12 1200 = (0, [(12, 52)]) ∧
    da7280_set_volt_rating allOkBus 12 7000 = (0, [(12, 0x6B)]) := by
  refine ⟨by norm_num, by norm_num, ?_, ?_⟩
  · have h := (set_volt_rating_spec allOkBus 12 1200).1 (by norm_num)
    simpa using h
  · have h := (set_volt_rating_spec allOkBus 12 7000).2 (by norm_num)
    simpa using h

/-- C10: For every 8-bit input value v, da7280_set_override_val writes
min(v, 127) to the override register TOP_CTL2 when acceleration is enabled
or the device type is LRA, writes v unchanged otherwise, and never returns a
validation error for any 8-bit input (over-range values are saturated, not
rejected). -/
theorem set_override_val_spec (b : Bus) (h : da7280_haptic) (v : Nat)
    (hv : v ≤ 255) :
    (h.acc_en ≠ 0 ∨ h.dev_type = 0 →
      da7280_set_override_val b h v =
        (if b.writeOk DA7280_TOP_CTL2 (min v 127) then (0 : Int) else -Eio,
         [(DA7280_TOP_CTL2, min v 127)])) ∧
    (h.acc_en = 0 → h.dev_type ≠ 0 →
      da7280_set_override_val b h v =
        (if b.writeOk DA7280_TOP_CTL2 v then (0 : Int) else -Eio,
         [(DA7280_TOP_CTL2, v)])) := by
  constructor
  · intro hc
    simp only [da7280_set_override_val, DA7280_TOP_CTL2,
      if_neg (by omega : ¬ v > 0xFF), if_pos hc]
    have hmin : (if v > 127 then 127 else v) = min v 127 := by split <;> omega
    rw [hmin]
    have hand : min v 127 &&& 127 = min v 127 := by rw [and_127_eq]; omega
    rw [hand]
    have hgoal := reg_write_byte b 35 (min v 127) (by omega)
    have hand2 : min v 127 &&& 255 = min v 127 := by rw [and_255_eq]; omega
    rw [hand2] at hgoal
    rw [hgoal]
  · intro h1 h2
    have hcond : ¬ (h.acc_en ≠ 0 ∨ h.dev_type = 0) := fun hor =>
      hor.elim (fun hh => hh h1) (fun hd => h2 hd)
    simp only [da7280_set_override_val, DA7280_TOP_CTL2,
      if_neg (by omega : ¬ v > 0xFF), if_neg hcond]
    rw [reg_write_byte b 35 v hv]

/-- Witness for C10 at v = 200 with acceleration on (saturates to 127) and
with acceleration off on an ERM device (written unchanged). -/
theorem set_override_val_spec_witness :
    (200 : Nat) ≤ 255 ∧
    da7280_set_override_val allOkBus ⟨false, 0, 1, 1, 1, 1, 1, 0⟩ 200
      = (0, [(0x23, 127)]) ∧
    da7280_set_override_val allOkBus ⟨false, 1, 1, 1, 1, 0, 1, 0⟩ 200
      = (0, [(0x23, 200)]) := by
  refine ⟨by norm_num, ?_, ?_⟩
  · have h := (set_override_val_spec allOkBus ⟨false, 0, 1, 1, 1, 1, 1, 0⟩ 200
      (by norm_num)).1 (Or.inr rfl)
    simpa [DA7280_TOP_CTL2] using h
  · have h := (set_override_val_spec allOkBus ⟨false, 1, 1, 1, 1, 0, 1, 0⟩ 200
      (by norm_num)).2 rfl (by norm_num)
    simpa [DA7280_TOP_CTL2] using h

/-- Counterexample to C6 as stated: with the current byte reading 0 and
mask = 0x0F, value = 0xF0, the claim's formula (old & ~mask) | (value & mask)
predicts the byte 0, but the code writes 0xF0 (the value is never masked). -/
theorem update_bits_claim_cex :
    (da7280_update_bits allOkBus 5 15 240).2 = [(5, 240)] ∧
    (240 : Nat) ≠ 0 &&& (255 ^^^ 15) ||| (240 &&& 15) := by
  constructor
  · rfl
  · decide

/-- C6 amended: da7280_update_bits reads the current byte and writes back
(old & ~mask) | value with value NOT masked, returning a bus error exactly
when the write sub-operation fails; a failed read is not detected (the
negative check sits on an unsigned byte variable), so the function proceeds
with the truncated error byte 0xFE instead of returning a bus error. -/
theorem update_bits_spec (b : Bus) (reg mask bits : Nat) (hr : reg ≤ 255)
    (hm : mask ≤ 255) (hb : bits ≤ 255) :
    (∀ old, b.readv reg = some old → old ≤ 255 →
      da7280_update_bits b reg mask bits =
        (if b.writeOk reg ((old &&& (255 ^^^ mask)) ||| bits) then (0 : Int)
          else -Eio,
         [(reg, (old &&& (255 ^^^ mask)) ||| bits)])) ∧
    (b.readv reg = none →
      da7280_update_bits b reg mask bits =
        (if b.writeOk reg ((0xFE &&& (255 ^^^ mask)) ||| bits) then (0 : Int)
          else -Eio,
         [(reg, (0xFE &&& (255 ^^^ mask)) ||| bits)])) := by
  have hregm : reg % 256 = reg := by omega
  have hmaskm : mask % 256 = mask := by omega
  have hbitsm : bits % 256 = bits := by omega
  constructor
  · intro old hread hold
    have h1 : old &&& (255 ^^^ mask) < 256 := lt_of_le_of_lt Nat.and_le_left (by omega)
    have hv2 : (old &&& (255 ^^^ mask)) ||| bits < 2 ^ 8 :=
      Nat.or_lt_two_pow (by omega) (by omega)
    have hrd : da7280_reg_read b reg = ((old % 256 : Nat) : Int) := by
      rw [← hregm] at hread
      exact reg_read_some hread
    simp only [da7280_update_bits, da7280_reg_write, hrd, byteOf_natCast,
      hregm, hmaskm, hbitsm]
    have holdm : old % 256 % 256 = old := by omega
    rw [holdm]
    have hv2m2 : ((old &&& (255 ^^^ mask)) ||| bits) % 256
        = (old &&& (255 ^^^ mask)) ||| bits := by omega
    rw [hv2m2]
    split
    · norm_num
    · norm_num [Eio]
  · intro hread
    have hrd : da7280_reg_read b reg = -Eio := by
      rw [← hregm] at hread
      exact reg_read_none hread
    have hbyte : byteOf (-Eio) = 0xFE := by decide
    have h1 : 0xFE &&& (255 ^^^ mask) < 256 := lt_of_le_of_lt Nat.and_le_left (by omega)
    have hv2 : (0xFE &&& (255 ^^^ mask)) ||| bits < 2 ^ 8 :=
      Nat.or_lt_two_pow (by omega) (by omega)
    simp only [da7280_update_bits, da7280_reg_write, hrd, hbyte,
      hregm, hmaskm, hbitsm]
    have hv2m2 : ((0xFE &&& (255 ^^^ mask)) ||| bits) % 256
        = (0xFE &&& (255 ^^^ mask)) ||| bits := by omega
    rw [hv2m2]
    split
    · norm_num
    · norm_num [Eio]

/-- Witness for C6 amended at reg 0x13, mask 0x10, value 0x10 with the
current byte 0 (read ok) and with a failing read. -/
theorem update_bits_spec_witness :
    ((19 : Nat) ≤ 255 ∧ (16 : Nat) ≤ 255 ∧ allOkBus.readv 19 = some 0) ∧
    da7280_update_bits allOkBus 19 16 16 = (0, [(19, 16)]) ∧
    (Bus.mk (fun _ => none) (fun _ _ => true)).readv 19 = none ∧
    da7280_update_bits (Bus.mk (fun _ => none) (fun _ _ => true)) 19 16 16
      = (0, [(19, 254)]) := by
  refine ⟨⟨by norm_num, by norm_num, rfl⟩, ?_, rfl, ?_⟩
  · have h := (update_bits_spec allOkBus 19 16 16 (by norm_num) (by norm_num)
      (by norm_num)).1 0 rfl (by norm_num)
    simpa using h
  · have h := (update_bits_spec (Bus.mk (fun _ => none) (fun _ _ => true))
      19 16 16 (by norm_num) (by norm_num) (by norm_num)).2 rfl
    simpa using h

/-- Counterexample to C3 as stated: at val = 0 mA (current byte of ACTUATOR3
reading 0) the derived code (0*1000 - 28600)/7200 + 1 = -2 clamped to [0, 31]
would be 0, but the code writes the two's-complement low five bits of -2,
namely 30, into the IMAX field. -/
theorem set_imax_claim_cex :
    (da7280_set_imax allOkBus 10500 0).2.head? = some (14, 30) ∧
    (max 0 (min (((0 : Int) * 1000 - 28600).tdiv 7200 + 1) 31)).toNat ≠ 30 := by
  constructor
  · rfl
  · decide

/-- C3 amended: for val <= 252 mA, da7280_set_imax derives the code
(val*1000 - 28600)/7200 + 1 with C truncating division, clamps it ABOVE at
31 only, and writes the code's low five two's-complement bits (code mod 32)
into the IMAX field of ACTUATOR3; a code in [0, 31] is written as is, but a
negative code (small val) wraps modulo 32 instead of clamping to 0. For
val > 252 a validation error is returned before any bus access. -/
theorem set_imax_spec (b : Bus) (impd val : Int) (a : Nat)
    (ha : b.readv 14 = some a) (haa : a ≤ 255) :
    (val > 252 → da7280_set_imax b impd val = (-EINVAL, [])) ∧
    (val ≤ 252 →
      (da7280_set_imax b impd val).2.head? =
        some (14, (a &&& 224) |||
          ((min ((val * 1000 - 28600).tdiv 7200 + 1) 31).emod 32).toNat)) := by
  constructor
  · intro h
    unfold da7280_set_imax
    rw [if_pos (by simp only [DA7280_IMAX_LIMIT]; omega)]
  · intro h
    have hclamp : (if (val * 1000 - 28600).tdiv DA7280_IMAX_STEP + 1 > 31 then (31 : Int)
        else (val * 1000 - 28600).tdiv DA7280_IMAX_STEP + 1)
        = min ((val * 1000 - 28600).tdiv 7200 + 1) 31 := by
      simp only [DA7280_IMAX_STEP]
      split <;> omega
    have hbits : ((min ((val * 1000 - 28600).tdiv 7200 + 1) 31).emod 32).toNat ≤ 255 := by
      have h32 : (min ((val * 1000 - 28600).tdiv 7200 + 1) 31).emod 32 < 32 :=
        Int.emod_lt_of_pos _ (by norm_num)
      omega
    have hrd : da7280_reg_read b 14 = ((a % 256 : Nat) : Int) := by
      simp [da7280_reg_read, ha]
    have hup : (da7280_update_bits b DA7280_ACTUATOR3 DA7280_IMAX_MASK
        ((min ((val * 1000 - 28600).tdiv 7200 + 1) 31).emod 32).toNat).2
        = [(14, (a &&& 224) |||
            ((min ((val * 1000 - 28600).tdiv 7200 + 1) 31).emod 32).toNat)] := by
      simp only [da7280_update_bits, da7280_reg_write, DA7280_ACTUATOR3,
        DA7280_IMAX_MASK, hrd, byteOf_natCast]
      norm_num
      have ham : a % 256 = a := by omega
      have hx : (255 : Nat) ^^^ 31 = 224 := by decide
      rw [ham, hx]
      set T := ((((val * 1000 - 28600).tdiv 7200 + 1) ⊓ 31).emod 32).toNat with hT
      have htm : T % 256 = T := by omega
      rw [htm]
      have hor : a &&& 224 ||| T < 2 ^ 8 := Nat.or_lt_two_pow
        (lt_of_le_of_lt Nat.and_le_left (by omega)) (by omega)
      exact Nat.mod_eq_of_lt (by omega)
    unfold da7280_set_imax
    rw [if_neg (by simp only [DA7280_IMAX_LIMIT]; omega)]
    simp only [hclamp]
    split
    · simp [hup]
    · split
      · simp [hup]
      · split
        · simp [hup]
        · simp [hup]

/-- Witness for C3 amended at val = 137 mA with the ACTUATOR3 byte reading 0:
the derived code is 16 and the logged IMAX write is (0x0E, 16). -/
theorem set_imax_spec_witness :
    allOkBus.readv 14 = some 0 ∧ (0 : Nat) ≤ 255 ∧ (137 : Int) ≤ 252 ∧
    (da7280_set_imax allOkBus 10500 137).2.head? = some (14, 16) := by
  refine ⟨rfl, by norm_num, by norm_num, ?_⟩
  have h := (set_imax_spec allOkBus 10500 137 0 rfl (by norm_num)).2 (by norm_num)
  have he : (0 &&& 224) |||
      ((min (((137 : Int) * 1000 - 28600).tdiv 7200 + 1) 31).emod 32).toNat = 16 := by
    decide
  rw [he] at h
  exact h

lemma testBit_high {x k : Nat} (hx : x < 256) (hk : 8 ≤ k) : x.testBit k = false :=
  Nat.testBit_lt_two_pow (lt_of_lt_of_le hx
    (le_trans (by norm_num) (Nat.pow_le_pow_right (by norm_num) hk)))

lemma update_bits_std (b : Bus) (t bits : Nat) (ht : b.readv 34 = some t)
    (htt : t ≤ 255) (hb : bits ≤ 255) (hw : ∀ r v, b.writeOk r v = true) :
    da7280_update_bits b DA7280_TOP_CTL1 DA7280_STANDBY_EN_MASK bits
      = (0, [(34, (t &&& 247) ||| bits)]) := by
  have hgen := (update_bits_spec b 34 8 bits (by norm_num) (by norm_num) hb).1 t ht htt
  have hx : (255 : Nat) ^^^ 8 = 247 := by decide
  rw [hx] at hgen
  have h8 : (1 <<< 3 : Nat) = 8 := by decide
  simp only [DA7280_TOP_CTL1, DA7280_STANDBY_EN_MASK, h8]
  rw [hgen]
  simp [hw]

/-- C7: Calling da7280_suspend when the driver already records the suspended
state returns success immediately and performs zero bus operations, and
symmetrically da7280_resume when already resumed; when the state does
change, each call writes only the STANDBY_EN bit of TOP_CTL1 (suspend
clears it, resume sets it) and updates the recorded suspend state. -/
theorem suspend_resume_spec (b : Bus) (h : da7280_haptic) (t : Nat)
    (ht : b.readv 34 = some t) (htt : t ≤ 255)
    (hw : ∀ r v, b.writeOk r v = true) :
    (h.suspend_state = true → da7280_suspend b h = (0, h, [])) ∧
    (h.suspend_state = false → da7280_resume b h = (0, h, [])) ∧
    (h.suspend_state = false →
      da7280_suspend b h = (0, { h with suspend_state := true }, [(34, t &&& 247)]) ∧
      (t &&& 247).testBit 3 = false ∧
      (∀ k, k ≠ 3 → (t &&& 247).testBit k = t.testBit k)) ∧
    (h.suspend_state = true →
      da7280_resume b h
        = (0, { h with suspend_state := false }, [(34, (t &&& 247) ||| 8)]) ∧
      ((t &&& 247) ||| 8).testBit 3 = true ∧
      (∀ k, k ≠ 3 → ((t &&& 247) ||| 8).testBit k = t.testBit k)) := by
  refine ⟨?_, ?_, ?_, ?_⟩
  · intro hs
    unfold da7280_suspend
    rw [if_pos hs]
  · intro hs
    unfold da7280_resume
    rw [if_pos (by simp [hs])]
  · intro hs
    refine ⟨?_, ?_, ?_⟩
    · unfold da7280_suspend
      rw [if_neg (by simp [hs])]
      have hu := update_bits_std b t 0 ht htt (by norm_num) hw
      simp only [hu]
      norm_num
    · simp [Nat.testBit_and, show Nat.testBit 247 3 = false from by decide]
    · intro k hk
      rcases Nat.lt_or_ge k 8 with hk8 | hk8
      · have h247 : ∀ j, j < 8 → j ≠ 3 → Nat.testBit 247 j = true := by decide
        simp [Nat.testBit_and, h247 k hk8 hk]
      · rw [testBit_high (lt_of_le_of_lt Nat.and_le_left (by omega)) hk8,
          testBit_high (by omega) hk8]
  · intro hs
    have hor : (t &&& 247) ||| 8 < 2 ^ 8 := Nat.or_lt_two_pow
      (lt_of_le_of_lt Nat.and_le_left (by omega)) (by norm_num)
    refine ⟨?_, ?_, ?_⟩
    · unfold da7280_resume
      rw [if_neg (by simp [hs])]
      have h8 : (DA7280_STANDBY_EN_MASK : Nat) = 8 := by decide
      rw [h8]
      have hu := update_bits_std b t 8 ht htt (by norm_num) hw
      rw [h8] at hu
      simp only [hu]
      norm_num
    · simp [Nat.testBit_or, Nat.testBit_and,
        show Nat.testBit 8 3 = true from by decide]
    · intro k hk
      rcases Nat.lt_or_ge k 8 with hk8 | hk8
      · have h247 : ∀ j, j < 8 → j ≠ 3 → Nat.testBit 247 j = true := by decide
        have h8b : ∀ j, j < 8 → j ≠ 3 → Nat.testBit 8 j = false := by decide
        simp [Nat.testBit_or, Nat.testBit_and, h247 k hk8 hk, h8b k hk8 hk]
      · rw [testBit_high (by omega) hk8, testBit_high (by omega) hk8]

/-- Witness for C7 with TOP_CTL1 reading 0x0B: double suspend is a no-op,
suspending from resumed clears bit 3 (writes 0x03), resuming from suspended
sets bit 3. -/
theorem suspend_resume_spec_witness :
    (allOkBus.readv 34 = some 0 ∧ (0 : Nat) ≤ 255) ∧
    da7280_suspend allOkBus ⟨true, 0, 1, 1, 1, 1, 1, 0⟩
      = (0, ⟨true, 0, 1, 1, 1, 1, 1, 0⟩, []) ∧
    da7280_resume allOkBus ⟨false, 0, 1, 1, 1, 1, 1, 0⟩
      = (0, ⟨false, 0, 1, 1, 1, 1, 1, 0⟩, []) ∧
    da7280_suspend allOkBus ⟨false, 0, 1, 1, 1, 1, 1, 0⟩
      = (0, ⟨true, 0, 1, 1, 1, 1, 1, 0⟩, [(34, 0)]) ∧
    da7280_resume allOkBus ⟨true, 0, 1, 1, 1, 1, 1, 0⟩
      = (0, ⟨false, 0, 1, 1, 1, 1, 1, 0⟩, [(34, 8)]) := by
  have hsusp := suspend_resume_spec allOkBus ⟨true, 0, 1, 1, 1, 1, 1, 0⟩ 0
    rfl (by norm_num) (fun r v => rfl)
  have hres := suspend_resume_spec allOkBus ⟨false, 0, 1, 1, 1, 1, 1, 0⟩ 0
    rfl (by norm_num) (fun r v => rfl)
  refine ⟨⟨rfl, by norm_num⟩, hsusp.1 rfl, hres.2.1 rfl, ?_, ?_⟩
  · have h := (hres.2.2.1 rfl).1
    simpa using h
  · have h := (hsusp.2.2.2 rfl).1
    simpa using h

lemma bulk_write_go_ok (b : Bus) (hw : ∀ r v, b.writeOk r v = true)
    (reg : Nat) (mem : Nat → Nat) :
    ∀ n i, bulk_write_go b reg mem n i =
      (0, (List.range n).map fun j => ((reg + (i + j)) % 256, mem (i + j) % 256)) := by
  intro n
  induction n with
  | zero => intro i; simp [bulk_write_go]
  | succ m ihm =>
    intro i
    rw [bulk_write_go, reg_write_ok hw]
    norm_num
    rw [ihm (i + 1)]
    norm_num
    rw [List.range_succ_eq_map]
    simp only [List.map_cons, List.map_map]
    congr 1
    apply List.map_congr_left
    intro a ha
    simp only [Function.comp, Nat.succ_eq_add_one]
    have hidx : i + 1 + a = i + (a + 1) := by omega
    rw [hidx]

lemma lock_bit_flip (m : Nat) : ((m ^^^ 255) &&& 128 = 0 ↔ m &&& 128 ≠ 0) := by
  have h1 := Nat.and_two_pow (m ^^^ 255) 7
  have h2 := Nat.and_two_pow m 7
  norm_num at h1 h2
  rw [h1, h2, show Nat.testBit 255 7 = true from by decide]
  cases hb : m.testBit 7 <;> simp

/-- C5: For every buffer with size > 100, da7280_haptic_mem_update fails
with a capacity/invalid error and performs zero bus operations; for
size <= 100 it fails busy if the warning bit of IRQ_STATUS1 is set, fails
access-denied if the pattern-memory lock bit of MEM_CTL2 reads as locked
(inverted logic: the zero state of the bit blocks the update), and otherwise
bulk-writes bytes starting at the base address read from MEM_CTL1 for
exactly (0xE7 - base + 1) bytes. -/
theorem haptic_mem_update_spec (b : Bus) (mem : Nat → Nat) (size s m base : Nat)
    (hs : b.readv 6 = some s) (hm : b.readv 45 = some m) (hb : b.readv 44 = some base)
    (hs255 : s ≤ 255) (hm255 : m ≤ 255) (hbase : base ≤ 231)
    (hw : ∀ r v, b.writeOk r v = true) (hmem : ∀ i, mem i ≤ 255) :
    (100 < size → da7280_haptic_mem_update b mem size = (-EINVAL, [])) ∧
    (size ≤ 100 → s &&& 32 ≠ 0 → da7280_haptic_mem_update b mem size = (-EBUSY, [])) ∧
    (size ≤ 100 → s &&& 32 = 0 → m &&& 128 = 0 →
      da7280_haptic_mem_update b mem size = (-EACCES, [])) ∧
    (size ≤ 100 → s &&& 32 = 0 → m &&& 128 ≠ 0 →
      da7280_haptic_mem_update b mem size =
        (0, (List.range (0xE7 - base + 1)).map fun j => (base + j, mem j))) := by
  have hrd1 : da7280_reg_read b DA7280_IRQ_STATUS1 = ((s % 256 : Nat) : Int) := by
    simp [da7280_reg_read, DA7280_IRQ_STATUS1, hs]
  have hrd2 : da7280_reg_read b DA7280_MEM_CTL2 = ((m % 256 : Nat) : Int) := by
    simp [da7280_reg_read, DA7280_MEM_CTL2, hm]
  have hrd3 : da7280_reg_read b DA7280_MEM_CTL1 = ((base % 256 : Nat) : Int) := by
    simp [da7280_reg_read, DA7280_MEM_CTL1, hb]
  have hsm : s % 256 = s := by omega
  have hmm : m % 256 = m := by omega
  have hbm : base % 256 = base := by omega
  rw [hsm] at hrd1
  rw [hmm] at hrd2
  rw [hbm] at hrd3
  have h128 : (1 <<< 7 : Nat) = 128 := by decide
  have h32 : (1 <<< 5 : Nat) = 32 := by decide
  refine ⟨?_, ?_, ?_, ?_⟩
  · intro hsize
    unfold da7280_haptic_mem_update
    rw [if_pos (by simp only [DA7280_SNP_MEM_SIZE]; omega)]
  · intro hsize hwarn
    unfold da7280_haptic_mem_update
    rw [if_neg (by simp only [DA7280_SNP_MEM_SIZE]; omega)]
    simp only [hrd1]
    rw [if_neg (by omega)]
    rw [if_pos (by
      simp only [DA7280_STA_WARNING_MASK, Int.toNat_natCast, h32]
      exact hwarn)]
  · intro hsize hwarn hlock
    unfold da7280_haptic_mem_update
    rw [if_neg (by simp only [DA7280_SNP_MEM_SIZE]; omega)]
    simp only [hrd1, hrd2]
    rw [if_neg (by omega)]
    rw [if_neg (by
      simp only [DA7280_STA_WARNING_MASK, Int.toNat_natCast, h32]
      simpa using hwarn)]
    rw [if_neg (by omega)]
    rw [if_pos (by
      simp only [DA7280_PATTERN_MEM_LOCK_MASK, Int.toNat_natCast, h128]
      exact fun h0 => ((lock_bit_flip m).mp h0) hlock)]
  · intro hsize hwarn hlock
    unfold da7280_haptic_mem_update
    rw [if_neg (by simp only [DA7280_SNP_MEM_SIZE]; omega)]
    simp only [hrd1, hrd2, hrd3]
    rw [if_neg (by omega)]
    rw [if_neg (by
      simp only [DA7280_STA_WARNING_MASK, Int.toNat_natCast, h32]
      simpa using hwarn)]
    rw [if_neg (by omega)]
    rw [if_neg (by
      simp only [DA7280_PATTERN_MEM_LOCK_MASK, Int.toNat_natCast, h128]
      simpa using (lock_bit_flip m).mpr hlock)]
    rw [if_neg (by omega)]
    unfold da7280_reg_bulk_write
    simp only [Int.toNat_natCast, DA7280_SNP_MEM_MAX]
    have hcount : (((0xE7 : Nat) : Int) - (base : Int) + 1).toNat = 232 - base := by omega
    rw [hcount]
    rw [bulk_write_go_ok b hw base mem (232 - base) 0]
    have hrange : (0xE7 : Nat) - base + 1 = 232 - base := by omega
    rw [hrange]
    congr 1
    apply List.map_congr_left
    intro j hj
    simp only [List.mem_range] at hj
    have h1 : (base + (0 + j)) % 256 = base + j := by omega
    have h2 : mem (0 + j) % 256 = mem j := by
      have := hmem (0 + j)
      have hz : 0 + j = j := by omega
      rw [hz]
      have := hmem j
      omega
    rw [h1, h2]

/-- The concrete bus used by the C5 witness: IRQ_STATUS1 reads 0, MEM_CTL2
reads 0x80 (lock bit set, i.e. unlocked), MEM_CTL1 reads 0xC8. -/
def memBus : Bus :=
  ⟨fun r => if r = 45 then some 128 else if r = 44 then some 200 else some 0,
   fun _ _ => true⟩

/-- Witness for C5: a 101-byte upload fails invalid with no writes; a
10-byte upload with status 0, lock bit set (unlocked) and base 0xC8 writes
the 32 bytes 0xC8..0xE7. -/
theorem haptic_mem_update_spec_witness :
    (memBus.readv 6 = some 0 ∧ memBus.readv 45 = some 128 ∧
      memBus.readv 44 = some 200 ∧ (0 : Nat) &&& 32 = 0 ∧
      (128 : Nat) &&& 128 ≠ 0) ∧
    da7280_haptic_mem_update memBus (fun j => 7) 101 = (-EINVAL, []) ∧
    da7280_haptic_mem_update memBus (fun j => 7) 10 =
      (0, (List.range 32).map fun j => (200 + j, 7)) := by
  refine ⟨⟨rfl, rfl, rfl, by norm_num, by norm_num⟩, ?_, ?_⟩
  · exact (haptic_mem_update_spec memBus (fun j => 7) 101 0 128 200 rfl rfl rfl
      (by norm_num) (by norm_num) (by norm_num) (fun r v => rfl)
      (fun i => by norm_num)).1 (by norm_num)
  · have h := (haptic_mem_update_spec memBus (fun j => 7) 10 0 128 200 rfl rfl rfl
      (by norm_num) (by norm_num) (by norm_num) (fun r v => rfl)
      (fun i => by norm_num)).2.2.2 (by norm_num) (by norm_num) (by norm_num)
    simpa using h

lemma or_zero_left {a b : Nat} (h : a ||| b = 0) : a = 0 := by
  apply Nat.eq_of_testBit_eq
  intro i
  have ht := congrArg (fun x => x.testBit i) h
  simp [Nat.testBit_or] at ht
  simp [ht.1]

lemma and248_and7 (x : Nat) : (x &&& 248) &&& 7 = 0 := by
  rw [Nat.and_assoc, show (248 &&& 7 : Nat) = 0 from by decide, Nat.and_zero]

/-- C1: For every invocation of the IRQ handler in which the byte read from
IRQ_EVENT1 has the pattern-fault bit (bit 4) set, the write that clears the
operation-mode field of TOP_CTL1 is issued strictly before the event-clear
write (the TOP_CTL1 write heads the log, and the event-clear write, when
issued, follows it); the event-clear write writes back to IRQ_EVENT1 exactly
the byte that was read; and when all three event bytes read are zero the
handler returns success without issuing any write. -/
theorem irq_handler_spec (b : Bus) (e0 e1 e2 : Nat)
    (h0 : b.readv 3 = some e0) (h1 : b.readv 4 = some e1) (h2 : b.readv 5 = some e2)
    (he0 : e0 ≤ 255) (he1 : e1 ≤ 255) (he2 : e2 ≤ 255) :
    (e0 ||| e1 ||| e2 = 0 → da7280_irq_handler b = (0, [])) ∧
    (e0 &&& 16 ≠ 0 → ∃ v, v &&& 7 = 0 ∧
      ((da7280_irq_handler b).2 = [(34, v)] ∨
       (da7280_irq_handler b).2 = [(34, v), (3, e0)])) ∧
    (∀ x, (3, x) ∈ (da7280_irq_handler b).2 → x = e0) := by
  have hrd0 : da7280_reg_read b 3 = ((e0 % 256 : Nat) : Int) := by
    simp [da7280_reg_read, h0]
  have hrd1 : da7280_reg_read b 4 = ((e1 % 256 : Nat) : Int) := by
    simp [da7280_reg_read, h1]
  have hrd2 : da7280_reg_read b 5 = ((e2 % 256 : Nat) : Int) := by
    simp [da7280_reg_read, h2]
  have hm0 : e0 % 256 = e0 := by omega
  have hm1 : e1 % 256 = e1 := by omega
  have hm2 : e2 % 256 = e2 := by omega
  rw [hm0] at hrd0
  rw [hm1] at hrd1
  rw [hm2] at hrd2
  have hb0 : byteOf ((e0 : Nat) : Int) = e0 := by rw [byteOf_natCast]; omega
  have hb1 : byteOf ((e1 : Nat) : Int) = e1 := by rw [byteOf_natCast]; omega
  have hb2 : byteOf ((e2 : Nat) : Int) = e2 := by rw [byteOf_natCast]; omega
  have hmain : da7280_irq_handler b =
      (if e0 ||| e1 ||| e2 = 0 then ((0 : Int), ([] : BusLog))
       else
        let step : Int × BusLog :=
          if e0 &&& 16 ≠ 0 then da7280_update_bits b 34 7 0 else (0, [])
        if step.1 ≠ 0 then step
        else
          let w := da7280_reg_write b 3 e0
          (w.1, step.2 ++ w.2)) := by
    unfold da7280_irq_handler
    simp only [DA7280_IRQ_EVENT1, DA7280_E_PAT_FAULT_MASK, DA7280_TOP_CTL1,
      DA7280_OPERATION_MODE_MASK]
    norm_num
    rw [hrd0, hrd1, hrd2]
    rw [if_neg (by omega), if_neg (by omega), if_neg (by omega)]
    simp only [hb0, hb1, hb2]
    rw [show (1 <<< 4 : Nat) = 16 from by decide]
  have hstep : da7280_update_bits b 34 7 0 =
      ((if b.writeOk 34 (byteOf (da7280_reg_read b 34) &&& 248) then (0 : Int)
        else -Eio),
       [(34, byteOf (da7280_reg_read b 34) &&& 248)]) := by
    have hv : byteOf (da7280_reg_read b 34) < 256 := byteOf_lt _
    have hx : (255 ^^^ 7 % 256 : Nat) = 248 := by decide
    have h34 : (34 % 256 : Nat) = 34 := by norm_num
    have hz : (0 % 256 : Nat) = 0 := by norm_num
    have hvm : (byteOf (da7280_reg_read b 34) &&& 248) % 256
        = byteOf (da7280_reg_read b 34) &&& 248 := by
      have hle : byteOf (da7280_reg_read b 34) &&& 248
          ≤ byteOf (da7280_reg_read b 34) := Nat.and_le_left
      omega
    simp only [da7280_update_bits, da7280_reg_write, hx, h34, hz, Nat.or_zero, hvm]
    split
    · norm_num
    · norm_num [Eio]
  have hwlog : da7280_reg_write b 3 e0 =
      ((if b.writeOk 3 e0 then (0 : Int) else -Eio), [(3, e0)]) := by
    simp only [da7280_reg_write]
    norm_num [hm0]
  rw [hmain]
  refine ⟨?_, ?_, ?_⟩
  · intro hz
    rw [if_pos hz]
  · intro hf
    have hnz : ¬ (e0 ||| e1 ||| e2 = 0) := by
      intro hz
      have hz0 : e0 = 0 := or_zero_left (or_zero_left hz)
      rw [hz0] at hf
      simp at hf
    rw [if_neg hnz]
    simp only [if_pos hf, hstep, hwlog]
    refine ⟨byteOf (da7280_reg_read b 34) &&& 248, and248_and7 _, ?_⟩
    by_cases hw34 : b.writeOk 34 (byteOf (da7280_reg_read b 34) &&& 248)
    · rw [if_pos hw34]
      norm_num
    · rw [if_neg hw34]
      norm_num [Eio]
  · intro x hx
    by_cases hz : e0 ||| e1 ||| e2 = 0
    · rw [if_pos hz] at hx
      simp at hx
    · rw [if_neg hz] at hx
      by_cases hf : e0 &&& 16 ≠ 0
      · simp only [if_pos hf, hstep, hwlog] at hx
        by_cases hw34 : b.writeOk 34 (byteOf (da7280_reg_read b 34) &&& 248)
        · rw [if_pos hw34] at hx
          norm_num at hx
          exact hx
        · rw [if_neg hw34] at hx
          norm_num [Eio] at hx
      · simp only [if_neg hf, hwlog] at hx
        norm_num at hx
        exact hx

/-- The concrete bus used by the C1 witness: IRQ_EVENT1 reads 0x10
(pattern fault), the other event registers read 0. -/
def irqBus : Bus := ⟨fun r => if r = 3 then some 16 else some 0, fun _ _ => true⟩

/-- Witness for C1 with a pattern-fault event byte 0x10: the handler issues
the operation-mode-clear write to TOP_CTL1 first, then clears the event by
writing back 0x10. -/
theorem irq_handler_spec_witness :
    (irqBus.readv 3 = some 16 ∧ irqBus.readv 4 = some 0 ∧
      irqBus.readv 5 = some 0 ∧ (16 : Nat) &&& 16 ≠ 0) ∧
    (∃ v, v &&& 7 = 0 ∧
      ((da7280_irq_handler irqBus).2 = [(34, v)] ∨
       (da7280_irq_handler irqBus).2 = [(34, v), (3, 16)])) ∧
    (∀ x, (3, x) ∈ (da7280_irq_handler irqBus).2 → x = 16) := by
  refine ⟨⟨rfl, rfl, rfl, by norm_num⟩, ?_, ?_⟩
  · exact (irq_handler_spec irqBus 16 0 0 rfl rfl rfl (by norm_num) (by norm_num)
      (by norm_num)).2.1 (by norm_num)
  · exact (irq_handler_spec irqBus 16 0 0 rfl rfl rfl (by norm_num) (by norm_num)
      (by norm_num)).2.2

lemma update_bits_log (b : Bus) (reg mask bits : Nat) :
    (da7280_update_bits b reg mask bits).2
      = [(reg % 256,
          ((byteOf (da7280_reg_read b reg) &&& (255 ^^^ mask % 256)) ||| bits % 256)
            % 256)] := rfl

lemma update_bits_ok_result (b : Bus) (reg mask bits : Nat)
    (hw : ∀ r v, b.writeOk r v = true) :
    (da7280_update_bits b reg mask bits).1 = 0 := by
  simp [da7280_update_bits, da7280_reg_write, hw]

lemma update_bits_mem (b : Bus) (reg mask bits : Nat) (p : Nat × Nat)
    (hp : p ∈ (da7280_update_bits b reg mask bits).2) : p.1 = reg % 256 := by
  rw [update_bits_log] at hp
  simp at hp
  simp [hp]

lemma reg_write_mem (b : Bus) (reg v : Nat) (p : Nat × Nat)
    (hp : p ∈ (da7280_reg_write b reg v).2) : p.1 = reg % 256 := by
  simp [da7280_reg_write] at hp
  simp [hp]

lemma set_resonant_freq_regs (b : Bus) (f : Nat) :
    ∀ p ∈ (da7280_set_resonant_freq b f).2, p.1 = 10 ∨ p.1 = 11 := by
  simp only [da7280_set_resonant_freq]
  split
  · simp
  · repeat' split
    all_goals
      simp [da7280_reg_write, List.forall_mem_append, List.forall_mem_cons,
        DA7280_FRQ_LRA_PER_H, DA7280_FRQ_LRA_PER_L]

lemma set_volt_rating_regs (b : Bus) (reg val : Nat) :
    ∀ p ∈ (da7280_set_volt_rating b reg val).2, p.1 = reg % 256 := by
  simp only [da7280_set_volt_rating]
  simp [da7280_reg_write, List.forall_mem_cons]

lemma set_imax_regs (b : Bus) (impd val : Int) :
    ∀ p ∈ (da7280_set_imax b impd val).2, p.1 = 14 ∨ p.1 = 16 ∨ p.1 = 15 := by
  simp only [da7280_set_imax]
  split
  · simp
  · repeat' split
    all_goals
      simp [update_bits_log, da7280_reg_write, List.forall_mem_append,
        List.forall_mem_cons, DA7280_ACTUATOR3, DA7280_CALIB_V2I_L,
        DA7280_CALIB_V2I_H, DA7280_IMAX_MASK]

lemma run_script_regs (b : Bus) :
    ∀ script, ∀ p ∈ (da7280_run_script b script).2, ∃ q ∈ script, p.1 = q.1 % 256 := by
  intro script
  induction script with
  | nil =>
    intro p hp
    simp [da7280_run_script] at hp
  | cons hd tl ih =>
    rcases hd with ⟨r, v⟩
    intro p hp
    unfold da7280_run_script at hp
    split at hp
    · rcases ih p hp with ⟨q, hq, hq2⟩
      exact ⟨q, List.mem_cons_of_mem _ hq, hq2⟩
    · simp only [da7280_reg_write] at hp
      split at hp
      · simp [Eio] at hp
        rcases hp with h | h
        · exact ⟨(r, v), List.mem_cons_self _ _, by simp [h]⟩
        · rcases ih p h with ⟨q, hq, hq2⟩
          exact ⟨q, List.mem_cons_of_mem _ hq, hq2⟩
      · simp [Eio] at hp
        exact ⟨(r, v), List.mem_cons_self _ _, by simp [hp]⟩

lemma bit01_testBit (c : Prop) [Decidable c] (j : Nat) (hj : 1 ≤ j) :
    (if c then (1 : Nat) else 0).testBit j = false := by
  have hlt : (if c then (1 : Nat) else 0) < 2 ^ j := by
    have h2 : 2 ≤ 2 ^ j :=
      le_trans (by norm_num) (Nat.pow_le_pow_right (by norm_num) hj)
    split <;> omega
  exact Nat.testBit_lt_two_pow hlt

lemma bit10_testBit (c : Prop) [Decidable c] (j : Nat) (hj : 1 ≤ j) :
    (if c then (0 : Nat) else 1).testBit j = false := by
  have hlt : (if c then (0 : Nat) else 1) < 2 ^ j := by
    have h2 : 2 ≤ 2 ^ j :=
      le_trans (by norm_num) (Nat.pow_le_pow_right (by norm_num) hj)
    split <;> omega
  exact Nat.testBit_lt_two_pow hlt

lemma top_cfg1_val_bit4 (h : da7280_haptic) (hb : h.bemf_sense_en = 0) :
    (top_cfg1_val h).testBit 4 = false := by
  unfold top_cfg1_val
  rw [hb]
  simp [Nat.testBit_or, Nat.testBit_shiftLeft, bit01_testBit, bit10_testBit]

lemma testBit4_mod256 (x : Nat) : (x % 256).testBit 4 = x.testBit 4 := by
  rw [← and_255_eq, Nat.testBit_and, show Nat.testBit 255 4 = true from by decide,
    Bool.and_true]

lemma update_bits_cfg1_bit4 (b : Bus) (h3 : da7280_haptic)
    (hb : h3.bemf_sense_en = 0) :
    ∀ p ∈ (da7280_update_bits b DA7280_TOP_CFG1 top_cfg1_mask (top_cfg1_val h3)).2,
      p.2.testBit 4 = false := by
  intro p hp
  rw [update_bits_log] at hp
  simp only [List.mem_singleton] at hp
  subst hp
  have hm : (255 ^^^ top_cfg1_mask % 256) = 192 := by decide
  simp only [hm]
  rw [testBit4_mod256, Nat.testBit_or, Nat.testBit_and,
    show Nat.testBit 192 4 = false from by decide, Bool.and_false,
    testBit4_mod256, top_cfg1_val_bit4 h3 hb, Bool.false_or]

lemma forall_mem_append2 {α : Type} {P : α → Prop} {A B : List α}
    (ha : ∀ p ∈ A, P p) (hb : ∀ p ∈ B, P p) : ∀ p ∈ A ++ B, P p := by
  intro p hp
  rcases List.mem_append.mp hp with h | h
  · exact ha p h
  · exact hb p h


lemma set_user_data_branch_regs (b : Bus) (cfg : UserData) (h1 : da7280_haptic) :
    ∀ p ∈ (da7280_set_user_data_branch b cfg h1).2.2,
      p.1 = 10 ∨ p.1 = 11 ∨ p.1 = 23 ∨ p.1 = 22 := by
  intro p hp
  simp only [da7280_set_user_data_branch] at hp
  repeat' split at hp
  all_goals repeat' rcases List.mem_append.mp hp with hp | hp
  all_goals
    first
      | exact absurd hp (List.not_mem_nil p)
      | (have hcomp := set_resonant_freq_regs _ _ p hp
         rcases hcomp with h | h <;> simp [h])
      | (have hr := update_bits_mem _ _ _ _ p hp
         simp [DA7280_TOP_INT_CFG1, DA7280_TOP_CFG4] at hr
         simp [hr])

lemma set_user_data_branch_state (b : Bus) (cfg : UserData) (h1 : da7280_haptic) :
    (da7280_set_user_data_branch b cfg h1).2.1.op_mode = h1.op_mode ∧
    (da7280_set_user_data_branch b cfg h1).2.1.bemf_sense_en = h1.bemf_sense_en := by
  simp only [da7280_set_user_data_branch]
  repeat' split
  all_goals simp

lemma set_user_data_log_bit4 (b : Bus) (cfg : UserData) (h0 : da7280_haptic)
    (hm : 3 ≤ cfg.op_mode) :
    ∀ p ∈ (da7280_set_user_data b cfg h0).2.2, p.1 = 19 → p.2.testBit 4 = false := by
  intro p hp h19
  simp only [da7280_set_user_data] at hp
  repeat' split at hp
  all_goals repeat' rcases List.mem_append.mp hp with hp | hp
  all_goals
    first
      | exact absurd hp (List.not_mem_nil p)
      | (have hcomp := set_user_data_branch_regs _ _ _ p hp
         rcases hcomp with h | h | h | h <;> (exfalso; omega))
      | (have hcomp := set_imax_regs _ _ _ p hp
         rcases hcomp with h | h | h <;> (exfalso; omega))
      | (have hr := set_volt_rating_regs _ _ _ p hp
         simp [DA7280_ACTUATOR1, DA7280_ACTUATOR2] at hr
         exfalso
         omega)
      | (have hcomp := run_script_regs _ _ p hp
         rcases hcomp with ⟨q, hq, hq2⟩
         simp [da7280_pdata_setup, DA7280_IRQ_EVENT1, DA7280_TOP_CTL2,
           DA7280_SEQ_CTL2, DA7280_GPI_0_CTL, DA7280_GPI_1_CTL,
           DA7280_GPI_2_CTL] at hq
         rcases hq with h | h | h | h | h | h <;>
           (rw [h] at hq2; simp at hq2; exfalso; omega))
      | (exact update_bits_cfg1_bit4 b _ (by simp) p hp)
      | (exfalso
         have hst := (set_user_data_branch_state b cfg
           { h0 with
             dev_type := cfg.haptic_dev
             op_mode := cfg.op_mode
             bemf_sense_en := cfg.bemf_sens_en
             freq_track_en := cfg.freq_track_en
             acc_en := cfg.acc_en
             rapid_stop_en := cfg.rapid_stop_en
             amp_pid_en := cfg.amp_pid_en }).1
         simp at hst
         omega)

/-- C9: For every configuration applied by da7280_set_user_data, if the
configured operation mode is RTWM or ETWM (mode >= 3), the BEMF_SENSE_EN bit
written to TOP_CFG1 in the combined field update is 0, regardless of the
caller's requested back-EMF-sense setting. -/
theorem set_user_data_bemf_spec (b : Bus) (cfg : UserData) (h0 : da7280_haptic)
    (hm : 3 ≤ cfg.op_mode) :
    ∀ v, (DA7280_TOP_CFG1, v) ∈ (da7280_set_user_data b cfg h0).2.2 →
      v.testBit 4 = false := by
  intro v hv
  exact set_user_data_log_bit4 b cfg h0 hm (DA7280_TOP_CFG1, v) hv rfl

/-- Witness for C9 with the shipped user data switched to RTWM mode (which
requests back-EMF sense on): every TOP_CFG1 write carries bit 4 clear. -/
theorem set_user_data_bemf_spec_witness :
    3 ≤ ({ defaultUserData with op_mode := 3 } : UserData).op_mode ∧
    (∀ v, (DA7280_TOP_CFG1, v) ∈ (da7280_set_user_data allOkBus
        { defaultUserData with op_mode := 3 }
        ⟨false, 0, 0, 0, 0, 0, 0, 0⟩).2.2 →
      v.testBit 4 = false) :=
  ⟨by decide, set_user_data_bemf_spec allOkBus _ _ (by decide)⟩

/-- Counterexample to C4 as stated: with the shipped user data but an
impedance of 60000 mOhm, da7280_set_user_data returns the validation error
for the impedance range with register writes already issued on the bus
(the frequency, TOP_CFG1 and IMAX writes precede the impedance check). -/
theorem set_user_data_claim_cex :
    (da7280_set_user_data allOkBus { defaultUserData with impd_mOhm := 60000 }
      ⟨false, 0, 0, 0, 0, 0, 0, 0⟩).1 = -EINVAL ∧
    (da7280_set_user_data allOkBus { defaultUserData with impd_mOhm := 60000 }
      ⟨false, 0, 0, 0, 0, 0, 0, 0⟩).2.2 ≠ [] := by
  constructor
  · rfl
  · decide

/-- C4 amended: an out-of-range LRA frequency is rejected before any bus
write; a current above the ceiling is rejected before any write issued by
da7280_set_imax itself (though after the frequency and TOP_CFG1 writes
already issued by da7280_set_user_data); an impedance outside
[4000, 50000] mOhm is only rejected after the IMAX-field write has been
issued, so that validation error does not precede all bus writes. -/
theorem configure_validation_spec (b : Bus) (cfg : UserData) (h0 : da7280_haptic)
    (impd val : Int) (hw : ∀ r v, b.writeOk r v = true) :
    (cfg.haptic_dev = 0 → (cfg.resonant_freq_Hz < 50 ∨ 300 < cfg.resonant_freq_Hz) →
      (da7280_set_user_data b cfg h0).1 = -EINVAL ∧
      (da7280_set_user_data b cfg h0).2.2 = []) ∧
    (val > 252 → da7280_set_imax b impd val = (-EINVAL, [])) ∧
    ((50000 < impd ∨ impd < 4000) → val ≤ 252 →
      (da7280_set_imax b impd val).1 = -EINVAL ∧
      (da7280_set_imax b impd val).2 ≠ []) := by
  refine ⟨?_, ?_, ?_⟩
  · intro hdev hfreq
    have hres : da7280_set_resonant_freq b cfg.resonant_freq_Hz = (-EINVAL, []) := by
      unfold da7280_set_resonant_freq
      rw [if_pos (by
        simp only [DA7280_MAX_RESONAT_FREQ, DA7280_MIN_RESONAT_FREQ]
        omega)]
    simp only [da7280_set_user_data, da7280_set_user_data_branch, hdev, hres]
    norm_num [EINVAL]
  · intro h
    unfold da7280_set_imax
    rw [if_pos (by simp only [DA7280_IMAX_LIMIT]; omega)]
  · intro himp hv
    unfold da7280_set_imax
    rw [if_neg (by simp only [DA7280_IMAX_LIMIT]; omega)]
    rw [if_neg (fun hcon => hcon
      (update_bits_ok_result b DA7280_ACTUATOR3 DA7280_IMAX_MASK _ hw))]
    rw [if_pos (by
      unfold da7280_impd_check
      rw [if_pos (by simp only [DA7280_IMPD_MAX, DA7280_IMPD_MIN]; omega)]
      norm_num [EINVAL])]
    constructor
    · rfl
    · rw [update_bits_log]
      simp

/-- Witness for C4 amended: an out-of-range frequency of 400 Hz fails with
no writes; 300 mA fails inside da7280_set_imax with no writes; an impedance
of 60000 mOhm fails only after the IMAX write. -/
theorem configure_validation_spec_witness :
    (∀ r v, allOkBus.writeOk r v = true) ∧
    (da7280_set_user_data allOkBus { defaultUserData with resonant_freq_Hz := 400 }
      ⟨false, 0, 0, 0, 0, 0, 0, 0⟩).1 = -EINVAL ∧
    (da7280_set_user_data allOkBus { defaultUserData with resonant_freq_Hz := 400 }
      ⟨false, 0, 0, 0, 0, 0, 0, 0⟩).2.2 = [] ∧
    da7280_set_imax allOkBus 10500 300 = (-EINVAL, []) ∧
    (da7280_set_imax allOkBus 60000 137).1 = -EINVAL ∧
    (da7280_set_imax allOkBus 60000 137).2 ≠ [] := by
  have h := configure_validation_spec allOkBus
    { defaultUserData with resonant_freq_Hz := 400 }
    ⟨false, 0, 0, 0, 0, 0, 0, 0⟩ 60000 137 (fun r v => rfl)
  have h2 := configure_validation_spec allOkBus defaultUserData
    ⟨false, 0, 0, 0, 0, 0, 0, 0⟩ 10500 300 (fun r v => rfl)
  refine ⟨fun r v => rfl, ?_, ?_, ?_, ?_, ?_⟩
  · exact (h.1 (by decide) (by decide)).1
  · exact (h.1 (by decide) (by decide)).2
  · exact h2.2.1 (by decide)
  · exact (h.2.2 (by decide) (by decide)).1
  · exact (h.2.2 (by decide) (by decide)).2
